import Mathlib

/-!
# Coordinate-Picker: a shallow embedding of the core logic

This file embeds the coordinate-picking application's core logic
(`canvas.rs`, `coordinate.rs`, `grid.rs`, `marker.rs`, `app.rs`) in Lean 4
and proves the behavioural properties stated in the specification.

`f32` values are modelled as rationals (`ℚ`): all the arithmetic involved
(addition, subtraction, multiplication, division, comparison, rounding)
is exact over `ℚ`, which is the idealised semantics the specification
reasons in.
-/

namespace CoordinatePicker

/-- A 2D point/vector with rational coordinates.  Models both `egui::Pos2`
and `egui::Vec2` (the source converts freely between them). -/
@[ext]
structure Point where
  x : ℚ
  y : ℚ
  deriving DecidableEq, Repr

instance : Add Point := ⟨fun a b => ⟨a.x + b.x, a.y + b.y⟩⟩
instance : Sub Point := ⟨fun a b => ⟨a.x - b.x, a.y - b.y⟩⟩

/-- Componentwise scaling, models `Vec2 * f32`. -/
def Point.scale (p : Point) (k : ℚ) : Point := ⟨p.x * k, p.y * k⟩

@[simp] theorem Point.add_x (a b : Point) : (a + b).x = a.x + b.x := rfl

@[simp] theorem Point.add_y (a b : Point) : (a + b).y = a.y + b.y := rfl

@[simp] theorem Point.sub_x (a b : Point) : (a - b).x = a.x - b.x := rfl

@[simp] theorem Point.sub_y (a b : Point) : (a - b).y = a.y - b.y := rfl

@[simp] theorem Point.scale_x (a : Point) (k : ℚ) : (a.scale k).x = a.x * k := rfl

@[simp] theorem Point.scale_y (a : Point) (k : ℚ) : (a.scale k).y = a.y * k := rfl

/-- Models `egui::Rect` (an axis-aligned rectangle given by two corners). -/
structure Rect where
  min : Point
  max : Point
  deriving DecidableEq, Repr

/-- Models `Rect::center()`. -/
def Rect.center (r : Rect) : Point := ⟨(r.min.x + r.max.x) / 2, (r.min.y + r.max.y) / 2⟩

/-- Models `Rect::from_center_size(center, size)`: corners at `center ± size/2`. -/
def Rect.from_center_size (c : Point) (s : Point) : Rect :=
  ⟨c - s.scale (1/2), c + s.scale (1/2)⟩

/-- Models `Rect::contains(p)` (inclusive on all four edges, as in `emath`). -/
def Rect.containsPt (r : Rect) (p : Point) : Prop :=
  r.min.x ≤ p.x ∧ p.x ≤ r.max.x ∧ r.min.y ≤ p.y ∧ p.y ≤ r.max.y

instance (r : Rect) (p : Point) : Decidable (r.containsPt p) := by
  unfold Rect.containsPt; infer_instance

/-- Floor of a rational, computed from its normalised representation
(`Int.fdiv` is floor division), so that the kernel can evaluate it. -/
def ratFloor (q : ℚ) : ℤ := Int.fdiv q.num q.den

/-- Ceiling of a rational, via `⌈q⌉ = -⌊-q⌋`. -/
def ratCeil (q : ℚ) : ℤ := -ratFloor (-q)

/-- Rust `f32::round`: round to nearest, ties away from zero. -/
def rustRound (q : ℚ) : ℤ :=
  if 0 ≤ q then ratFloor (q + 1/2) else ratCeil (q - 1/2)

/-- Rust `f32::clamp(lo, hi)`. -/
def rustClamp (x lo hi : ℚ) : ℚ :=
  if x < lo then lo else if x > hi then hi else x

/-- Rust `as i32` on a finite float: truncation toward zero (saturation at
the `i32` bounds is irrelevant for the coordinate magnitudes involved and
is not modelled). -/
def truncToInt (q : ℚ) : ℤ :=
  if 0 ≤ q then ratFloor q else ratCeil q

/-- From `canvas.rs`: the viewport state. -/
structure Canvas where
  width : ℚ
  height : ℚ
  offset : Point
  zoom : ℚ
  deriving DecidableEq, Repr

namespace Canvas

/-- Models `Canvas::new(width, height)`: zero offset, 50% zoom. -/
def new (width height : ℚ) : Canvas :=
  { width := width, height := height, offset := ⟨0, 0⟩, zoom := 1/2 }

/-- Models `Canvas::set_size`. -/
def set_size (c : Canvas) (width height : ℚ) : Canvas :=
  { c with width := width, height := height }

/-- Models `Canvas::pan`. -/
def pan (c : Canvas) (delta : Point) : Canvas :=
  { c with offset := c.offset + delta }

/-- Models `Canvas::zoom_at(factor, pos, view_rect)`. -/
def zoom_at (c : Canvas) (factor : ℚ) (pos : Point) (view_rect : Rect) : Canvas :=
  let old_zoom := c.zoom
  let new_zoom := rustClamp (c.zoom * factor) (1/10) 10
  let view_center := view_rect.center
  let mouse_offset := pos - view_center
  { c with zoom := new_zoom,
           offset := c.offset - mouse_offset.scale (new_zoom / old_zoom - 1) }

/-- Models `Canvas::reset_view`. -/
def reset_view (c : Canvas) : Canvas :=
  { c with offset := ⟨0, 0⟩, zoom := 1/2 }

/-- Models `Canvas::get_screen_rect(view_rect)`. -/
def get_screen_rect (c : Canvas) (view_rect : Rect) : Rect :=
  let center := view_rect.center + c.offset
  let half_size := (Point.mk c.width c.height).scale (1/2) |>.scale c.zoom
  Rect.from_center_size center (half_size.scale 2)

/-- Models `Canvas::screen_to_canvas_pos(screen_pos, view_rect)`. -/
def screen_to_canvas_pos (c : Canvas) (screen_pos : Point) (view_rect : Rect) : Point :=
  let screen_rect := c.get_screen_rect view_rect
  ⟨(screen_pos.x - screen_rect.min.x) / c.zoom,
   (screen_pos.y - screen_rect.min.y) / c.zoom⟩

/-- Models `Canvas::canvas_to_screen_pos(canvas_pos, view_rect)`. -/
def canvas_to_screen_pos (c : Canvas) (canvas_pos : Point) (view_rect : Rect) : Point :=
  let screen_rect := c.get_screen_rect view_rect
  screen_rect.min + canvas_pos.scale c.zoom

end Canvas

/-- From `coordinate.rs`: the display coordinate convention. -/
structure CoordinateSystem where
  origin_top_left : Bool
  canvas_height : ℚ
  deriving DecidableEq, Repr

namespace CoordinateSystem

/-- Models `CoordinateSystem::to_system_coordinates`. -/
def to_system_coordinates (cs : CoordinateSystem) (canvas_pos : Point) : Point :=
  if cs.origin_top_left then canvas_pos
  else ⟨canvas_pos.x, cs.canvas_height - canvas_pos.y⟩

/-- Models `CoordinateSystem::from_system_coordinates`. -/
def from_system_coordinates (cs : CoordinateSystem) (system_pos : Point) : Point :=
  if cs.origin_top_left then system_pos
  else ⟨system_pos.x, cs.canvas_height - system_pos.y⟩

end CoordinateSystem

/-- From `grid.rs`: grid settings. -/
structure Grid where
  size : ℚ
  visible : Bool
  snapping : Bool
  deriving DecidableEq, Repr

/-- Models `egui::Color32`, kept abstract as an RGBA record. -/
structure Color where
  r : ℕ
  g : ℕ
  b : ℕ
  a : ℕ
  deriving DecidableEq, Repr

/-- From `marker.rs`: a placed marker. -/
structure Marker where
  position : Point
  system_position : Point
  color : Color
  deriving DecidableEq, Repr

/-- From `app.rs`: the application state visible to the modelled operations.
The clipboard capability (`Option<ClipboardContext>`) is modelled as an
optional host service `String → Bool` returning the success of
`set_contents(text).is_ok()`. -/
structure AppState where
  canvas : Canvas
  grid : Grid
  coordinate_system : CoordinateSystem
  markers : List Marker
  marker_color : Color
  recalculate_markers : Bool
  clipboard : Option (String → Bool)

namespace AppState

/-- Models `CoordinatePickerApp::copy_to_clipboard(text)`: returns the success
boolean and leaves the application state untouched. -/
def copy_to_clipboard (st : AppState) (text : String) : Bool × AppState :=
  match st.clipboard with
  | some set_contents => (set_contents text, st)
  | none => (false, st)

/-- Models `CoordinatePickerApp::apply_grid_snapping(pos)`: the else-if chain from
`app.rs` (identical in both copies of the file). -/
def apply_grid_snapping (st : AppState) (pos : Point) : Point :=
  if st.grid.snapping then
    let grid_size := st.grid.size
    let canvas_width := st.canvas.width
    let canvas_height := st.canvas.height
    let x := (rustRound (pos.x / grid_size) : ℚ) * grid_size
    let y := (rustRound (pos.y / grid_size) : ℚ) * grid_size
    if pos.x < grid_size / 2 then ⟨0, y⟩
    else if pos.x > canvas_width - grid_size / 2 then ⟨canvas_width, y⟩
    else if pos.y < grid_size / 2 then ⟨x, 0⟩
    else if pos.y > canvas_height - grid_size / 2 then ⟨x, canvas_height⟩
    else ⟨x, y⟩
  else pos

/-- The `response.clicked()` branch of `handle_canvas_interactions`:
a primary click at screen position `pos` with the canvas widget occupying
`canvas_rect`. -/
def handle_primary_click (st : AppState) (canvas_rect : Rect) (pos : Point) : AppState :=
  let border_rect := st.canvas.get_screen_rect canvas_rect
  if border_rect.containsPt pos then
    let canvas_pos := st.canvas.screen_to_canvas_pos pos canvas_rect
    let snapped_pos :=
      if st.grid.snapping then st.apply_grid_snapping canvas_pos else canvas_pos
    let canvas_width := st.canvas.width
    let canvas_height := st.canvas.height
    if 0 ≤ snapped_pos.x ∧ snapped_pos.x ≤ canvas_width ∧
       0 ≤ snapped_pos.y ∧ snapped_pos.y ≤ canvas_height then
      let system_pos := st.coordinate_system.to_system_coordinates snapped_pos
      { st with markers := st.markers ++ [Marker.mk snapped_pos system_pos st.marker_color] }
    else st
  else st

end AppState

/-- Models `(marker.position - position).length() < CLICK_THRESHOLD` with
`CLICK_THRESHOLD = 10.0`.  Stated on the squared Euclidean distance, which
is equivalent (`length` is nonnegative and squaring is monotone there)
and keeps the predicate inside `ℚ`. -/
def nearClick (marker : Marker) (position : Point) : Prop :=
  (marker.position.x - position.x) ^ 2 + (marker.position.y - position.y) ^ 2 < 10 ^ 2

instance (m : Marker) (p : Point) : Decidable (nearClick m p) := by
  unfold nearClick; infer_instance

/-- Models `CoordinatePickerApp::remove_nearby_marker(position)` acting on the
marker list: `self.markers.iter().position(pred)` is `List.findIdx?` and
`Vec::remove(index)` is `List.eraseIdx`. -/
def remove_nearby_marker (markers : List Marker) (position : Point) : List Marker :=
  match markers.findIdx? (fun marker => decide (nearClick marker position)) with
  | some index => markers.eraseIdx index
  | none => markers

/-- The "Delete" button handler in `update`:
`if index < self.markers.len() { self.markers.remove(index); }`. -/
def delete_marker_at (markers : List Marker) (index : ℕ) : List Marker :=
  if index < markers.length then markers.eraseIdx index else markers

/-- Rust `Vec<String>::join("\n")`. -/
def joinLines : List String → String
  | [] => ""
  | [s] => s
  | s :: rest => s ++ "\n" ++ joinLines rest

/-- The string built by the "Copy All Coordinates" button in `update`:
`enumerate().map(|(i, m)| format!("{}. ({}, {})", i + 1, x, y))` with
`x = m.system_position.x as i32` and `y = m.system_position.y as i32`,
joined with newlines. -/
def copy_all_coords (markers : List Marker) : String :=
  joinLines (markers.enum.map fun p =>
    s!"{p.1 + 1}. ({truncToInt p.2.system_position.x}, {truncToInt p.2.system_position.y})")

/-- The "Copy All Coordinates" button handler: builds the string and hands
exactly it to `copy_to_clipboard`. -/
def copy_all_action (st : AppState) : Bool × AppState :=
  st.copy_to_clipboard (copy_all_coords st.markers)

/-- The origin-convention radio handler in `update` (lines 535–554 of
`app.rs`): records the new convention in the coordinate system and, when
"Recalculate markers on origin change" is ticked and the convention
actually changed, rewrites every marker's `system_position` by converting
it back to canvas coordinates under the old convention (using the canvas's
current height) and forward through the new convention.  The canonical
`position` field is not touched. -/
def toggle_origin (st : AppState) (new_top_left : Bool) : AppState :=
  let old_origin_top_left := st.coordinate_system.origin_top_left
  let cs := { st.coordinate_system with origin_top_left := new_top_left }
  let st' := { st with coordinate_system := cs }
  if st.recalculate_markers && (old_origin_top_left != new_top_left) then
    { st' with markers := st'.markers.map fun marker =>
        let canvas_pos :=
          if old_origin_top_left then marker.system_position
          else ⟨marker.system_position.x, st.canvas.height - marker.system_position.y⟩
        { marker with system_position := cs.to_system_coordinates canvas_pos } }
  else st'

/-- The canvas operations a user session can interleave (claim C4). -/
inductive CanvasOp where
  | zoomAt (factor : ℚ) (pos : Point) (view_rect : Rect)
  | pan (delta : Point)
  | setSize (width height : ℚ)
  | resetView
  deriving Repr

/-- Apply one canvas operation. -/
def applyCanvasOp (c : Canvas) : CanvasOp → Canvas
  | .zoomAt factor pos view_rect => c.zoom_at factor pos view_rect
  | .pan delta => c.pan delta
  | .setSize w h => c.set_size w h
  | .resetView => c.reset_view

/-- Apply a sequence of canvas operations, first element first. -/
def applyCanvasOps (c : Canvas) (ops : List CanvasOp) : Canvas :=
  ops.foldl applyCanvasOp c

/-! ## Helper lemmas -/

theorem rustClamp_eq_max_min (x lo hi : ℚ) (h : lo ≤ hi) :
    rustClamp x lo hi = max lo (min x hi) := by
  unfold rustClamp
  split_ifs with h1 h2
  · rw [min_eq_left (by linarith), max_eq_left (by linarith)]
  · rw [min_eq_right (by linarith), max_eq_right h]
  · rw [min_eq_left (by linarith), max_eq_right (by linarith)]

theorem applyCanvasOp_zoom_range (c : Canvas) (op : CanvasOp)
    (hc : 1/10 ≤ c.zoom ∧ c.zoom ≤ 10) :
    1/10 ≤ (applyCanvasOp c op).zoom ∧ (applyCanvasOp c op).zoom ≤ 10 := by
  cases op with
  | zoomAt factor pos view_rect =>
      show 1/10 ≤ rustClamp (c.zoom * factor) (1/10) 10 ∧
        rustClamp (c.zoom * factor) (1/10) 10 ≤ 10
      rw [rustClamp_eq_max_min _ _ _ (by norm_num)]
      exact ⟨le_max_left _ _, max_le (by norm_num) (min_le_right _ _)⟩
  | pan delta => exact hc
  | setSize w h => exact hc
  | resetView =>
      exact ⟨by norm_num [applyCanvasOp, Canvas.reset_view],
             by norm_num [applyCanvasOp, Canvas.reset_view]⟩

theorem applyCanvasOps_zoom_range (ops : List CanvasOp) (c : Canvas)
    (hc : 1/10 ≤ c.zoom ∧ c.zoom ≤ 10) :
    1/10 ≤ (applyCanvasOps c ops).zoom ∧ (applyCanvasOps c ops).zoom ≤ 10 := by
  induction ops generalizing c with
  | nil => exact hc
  | cons op rest ih => exact ih (applyCanvasOp c op) (applyCanvasOp_zoom_range c op hc)

/-! ## C3: `zoom_at` rescales, clamps and applies the pivot correction -/

/-- C3: `zoomAt(factor, pivotScreenPoint, viewportRect)` multiplies the
stored zoom by `factor`, clamps the result to `[0.1, 10.0]`, and updates
the pan offset by `offset -= (pivot - viewportRect.center()) *
(newZoom/oldZoom - 1)` where `oldZoom` is the zoom before the call; the
canvas width and height are untouched. -/
theorem zoom_at_spec (c : Canvas) (factor : ℚ) (pos : Point) (view_rect : Rect) :
    (c.zoom_at factor pos view_rect).zoom = max (1/10) (min (c.zoom * factor) 10) ∧
    (c.zoom_at factor pos view_rect).offset =
      c.offset - (pos - view_rect.center).scale
        ((c.zoom_at factor pos view_rect).zoom / c.zoom - 1) ∧
    (c.zoom_at factor pos view_rect).width = c.width ∧
    (c.zoom_at factor pos view_rect).height = c.height :=
  ⟨rustClamp_eq_max_min _ _ _ (by norm_num), rfl, rfl, rfl⟩

/-! ## C4: zoom stays in `[0.1, 10.0]` under any operation sequence -/

/-- C4: starting from `Canvas::new` (zoom `0.5`), after any sequence of
`zoom_at`, `pan`, `set_size` and `reset_view` operations the stored zoom
remains within `[0.1, 10.0]` inclusive. -/
theorem zoom_always_in_range (w h : ℚ) (ops : List CanvasOp) :
    1/10 ≤ (applyCanvasOps (Canvas.new w h) ops).zoom ∧
    (applyCanvasOps (Canvas.new w h) ops).zoom ≤ 10 :=
  applyCanvasOps_zoom_range ops (Canvas.new w h) (by norm_num [Canvas.new])

/-! ## C5: screen↔canvas round trip -/

/-- C5: for every screen point and viewport rectangle, with zoom and offset
held fixed and the zoom nonzero (as guaranteed by its clamped range),
`canvas_to_screen_pos` is a left inverse of `screen_to_canvas_pos`. -/
theorem screen_canvas_round_trip (c : Canvas) (p : Point) (r : Rect)
    (hz : c.zoom ≠ 0) :
    c.canvas_to_screen_pos (c.screen_to_canvas_pos p r) r = p := by
  unfold Canvas.canvas_to_screen_pos Canvas.screen_to_canvas_pos
  ext
  · simp only [Point.add_x, Point.scale_x]
    field_simp
  · simp only [Point.add_y, Point.scale_y]
    field_simp

/-- Witness for C5 at a concrete canvas and screen point. -/
theorem screen_canvas_round_trip_witness :
    (Canvas.new 800 600).zoom ≠ 0 ∧
    (Canvas.new 800 600).canvas_to_screen_pos
      ((Canvas.new 800 600).screen_to_canvas_pos ⟨13, 17⟩ ⟨⟨0, 0⟩, ⟨640, 480⟩⟩)
      ⟨⟨0, 0⟩, ⟨640, 480⟩⟩ = ⟨13, 17⟩ :=
  ⟨by with_unfolding_all decide,
   screen_canvas_round_trip (Canvas.new 800 600) ⟨13, 17⟩ ⟨⟨0, 0⟩, ⟨640, 480⟩⟩
     (by with_unfolding_all decide)⟩

/-! ## C1: grid snapping with edge override -/

/-- The specification's per-axis snapping rule, written from the spec's
words: snap `coord` to the nearest multiple of `g`, but force `0` when
`coord < g/2` and force `limit` when `coord > limit - g/2`. -/
def axisSnap (g limit coord : ℚ) : ℚ :=
  if coord < g / 2 then 0
  else if coord > limit - g / 2 then limit
  else (rustRound (coord / g) : ℚ) * g

/-- The claimed snapping function: the rounded candidate with the edge
override applied to each axis independently (written from the claim's
words, to be compared with `apply_grid_snapping`). -/
def snapIndependent (g w h : ℚ) (pos : Point) : Point :=
  ⟨axisSnap g w pos.x, axisSnap g h pos.y⟩

/-- A concrete application state: 800×610 canvas, grid size 20 with
snapping enabled. -/
def stSnap : AppState :=
  { canvas := Canvas.new 800 610
    grid := { size := 20, visible := true, snapping := true }
    coordinate_system := { origin_top_left := true, canvas_height := 610 }
    markers := []
    marker_color := ⟨255, 0, 0, 255⟩
    recalculate_markers := false
    clipboard := none }

set_option maxRecDepth 4000 in
/-- Counterexample to C1: at the point `(3, 604)` on an 800×610 canvas with
grid size 20, the code's else-if chain fires only the `x < g/2` override
and leaves `y` at the rounded value `600`, whereas the claimed independent
per-axis rule would also force `y` to the canvas height `610`. -/
theorem apply_grid_snapping_not_independent :
    stSnap.apply_grid_snapping ⟨3, 604⟩ ≠ snapIndependent 20 800 610 ⟨3, 604⟩ ∧
    stSnap.apply_grid_snapping ⟨3, 604⟩ = ⟨0, 600⟩ ∧
    snapIndependent 20 800 610 ⟨3, 604⟩ = ⟨0, 610⟩ := by
  refine ⟨?_, ?_, ?_⟩ <;> with_unfolding_all decide

/-- C1 (amended): with snapping enabled, the snapping function applies the
edge overrides through a prioritised else-if chain: the x axis always
follows the independent rule (`0` if `x < g/2`, `canvasWidth` if
`x > canvasWidth - g/2`, else `round(x/g)*g`); when either x override
fires, the y result is just the rounded candidate `round(y/g)*g` with no
y-edge override; only when neither x override fires does the y axis follow
the independent rule. -/
theorem apply_grid_snapping_chain (st : AppState) (pos : Point)
    (hsnap : st.grid.snapping = true) :
    (st.apply_grid_snapping pos).x = axisSnap st.grid.size st.canvas.width pos.x ∧
    ((pos.x < st.grid.size / 2 ∨ pos.x > st.canvas.width - st.grid.size / 2) →
      (st.apply_grid_snapping pos).y = (rustRound (pos.y / st.grid.size) : ℚ) * st.grid.size) ∧
    (¬(pos.x < st.grid.size / 2) ∧ ¬(pos.x > st.canvas.width - st.grid.size / 2) →
      (st.apply_grid_snapping pos).y = axisSnap st.grid.size st.canvas.height pos.y) := by
  unfold AppState.apply_grid_snapping axisSnap
  rw [hsnap]
  simp only [if_true]
  split_ifs <;> simp_all

set_option maxRecDepth 4000 in
/-- Witness for the amended C1 at the spec's interior example:
`(37, 41)` with grid size 20 snaps to the nearest intersections. -/
theorem apply_grid_snapping_chain_witness :
    stSnap.grid.snapping = true ∧
    ((stSnap.apply_grid_snapping ⟨37, 41⟩).x = axisSnap stSnap.grid.size stSnap.canvas.width 37 ∧
     ((37 : ℚ) < stSnap.grid.size / 2 ∨ (37 : ℚ) > stSnap.canvas.width - stSnap.grid.size / 2 →
       (stSnap.apply_grid_snapping ⟨37, 41⟩).y = (rustRound (41 / stSnap.grid.size) : ℚ) * stSnap.grid.size) ∧
     (¬((37 : ℚ) < stSnap.grid.size / 2) ∧ ¬((37 : ℚ) > stSnap.canvas.width - stSnap.grid.size / 2) →
       (stSnap.apply_grid_snapping ⟨37, 41⟩).y = axisSnap stSnap.grid.size stSnap.canvas.height 41)) ∧
    stSnap.apply_grid_snapping ⟨37, 41⟩ = ⟨40, 40⟩ :=
  ⟨rfl, apply_grid_snapping_chain stSnap ⟨37, 41⟩ rfl, by with_unfolding_all decide⟩

/- The spec's worked snapping examples on an 800×600 canvas, grid 20. -/

/-- An 800×600 variant of `stSnap`. -/
def stSnap600 : AppState :=
  { stSnap with canvas := Canvas.new 800 600
                coordinate_system := { origin_top_left := true, canvas_height := 600 } }

set_option maxRecDepth 4000 in
example : stSnap600.apply_grid_snapping ⟨3, 3⟩ = ⟨0, 0⟩ := by
  with_unfolding_all decide

set_option maxRecDepth 4000 in
example : stSnap600.apply_grid_snapping ⟨795, 300⟩ = ⟨800, 300⟩ := by
  with_unfolding_all decide

set_option maxRecDepth 4000 in
example : stSnap600.apply_grid_snapping ⟨37, 41⟩ = ⟨40, 40⟩ := by
  with_unfolding_all decide

/-! ## C2: origin toggle with marker recalculation -/

/-- A concrete state for the C2 witness: 800×600 canvas, top-left origin,
recalculation enabled, one marker at canvas `(50, 50)`. -/
def stToggle : AppState :=
  { canvas := Canvas.new 800 600
    grid := { size := 20, visible := true, snapping := false }
    coordinate_system := { origin_top_left := true, canvas_height := 600 }
    markers := [⟨⟨50, 50⟩, ⟨50, 50⟩, ⟨255, 0, 0, 255⟩⟩]
    marker_color := ⟨255, 0, 0, 255⟩
    recalculate_markers := true
    clipboard := none }

/-- C2: with marker recalculation enabled, toggling the origin convention
recomputes only each marker's display position (`system_position`), via
back-conversion under the previous convention and forward conversion under
the new one; the canonical canvas `position` of every marker is unchanged,
and — as long as the canvas height agrees with the height tracked by the
coordinate system and does not change — toggling and toggling back
restores the whole state, display positions included, exactly. -/
theorem toggle_origin_round_trip (st : AppState) (b : Bool)
    (hb : st.coordinate_system.origin_top_left = b)
    (hh : st.coordinate_system.canvas_height = st.canvas.height)
    (hr : st.recalculate_markers = true) :
    (toggle_origin st (!b)).markers.map Marker.position = st.markers.map Marker.position ∧
    toggle_origin (toggle_origin st (!b)) b = st := by
  obtain ⟨canvas, grid, ⟨otl, ch⟩, markers, mc, rm, cb⟩ := st
  simp only at hb hh hr
  subst hb hh hr
  unfold toggle_origin
  cases otl <;>
    simp [CoordinateSystem.to_system_coordinates, List.map_map, Function.comp] <;>
    (induction markers with
     | nil => rfl
     | cons m rest ih =>
         simp only [List.map_cons, Function.comp_apply, sub_sub_cancel, ih])

set_option maxRecDepth 4000 in
/-- Witness for C2: the marker at canvas `(50, 50)` on a 600-tall canvas
displays at `(50, 550)` after switching to a bottom-left origin, and the
double toggle restores the original state exactly. -/
theorem toggle_origin_round_trip_witness :
    stToggle.coordinate_system.origin_top_left = true ∧
    stToggle.coordinate_system.canvas_height = stToggle.canvas.height ∧
    stToggle.recalculate_markers = true ∧
    ((toggle_origin stToggle (!true)).markers.map Marker.position =
        stToggle.markers.map Marker.position ∧
      toggle_origin (toggle_origin stToggle (!true)) true = stToggle) ∧
    (toggle_origin stToggle false).markers.map Marker.system_position = [⟨50, 550⟩] :=
  ⟨rfl, by with_unfolding_all decide, rfl,
   toggle_origin_round_trip stToggle true rfl (by with_unfolding_all decide) rfl,
   by with_unfolding_all decide⟩

/-! ## C6: marker placement guard -/

/-- The canvas-space click position after optional snapping, exactly as
computed in the `response.clicked()` branch. -/
def click_snapped_pos (st : AppState) (canvas_rect : Rect) (pos : Point) : Point :=
  let canvas_pos := st.canvas.screen_to_canvas_pos pos canvas_rect
  if st.grid.snapping then st.apply_grid_snapping canvas_pos else canvas_pos

/-- The condition under which a primary click places a marker: the click
lies within the canvas's on-screen rectangle and the snapped canvas-space
point lies within `[0, width] × [0, height]`, bounds inclusive. -/
def click_allowed (st : AppState) (canvas_rect : Rect) (pos : Point) : Prop :=
  (st.canvas.get_screen_rect canvas_rect).containsPt pos ∧
  0 ≤ (click_snapped_pos st canvas_rect pos).x ∧
  (click_snapped_pos st canvas_rect pos).x ≤ st.canvas.width ∧
  0 ≤ (click_snapped_pos st canvas_rect pos).y ∧
  (click_snapped_pos st canvas_rect pos).y ≤ st.canvas.height

instance (st : AppState) (canvas_rect : Rect) (pos : Point) :
    Decidable (click_allowed st canvas_rect pos) := by
  unfold click_allowed; infer_instance

/-- C6: a primary click appends exactly one marker (at the snapped canvas
position, with its display position and the current marker colour) when
and only when `click_allowed` holds — the click point is inside the
canvas's on-screen rectangle and the snapped point is inside
`[0, width] × [0, height]` with inclusive bounds; otherwise the click
leaves the whole application state unchanged. -/
theorem handle_primary_click_spec (st : AppState) (canvas_rect : Rect) (pos : Point) :
    st.handle_primary_click canvas_rect pos =
      if click_allowed st canvas_rect pos then
        { st with markers := st.markers ++
            [Marker.mk (click_snapped_pos st canvas_rect pos)
              (st.coordinate_system.to_system_coordinates (click_snapped_pos st canvas_rect pos))
              st.marker_color] }
      else st := by
  unfold AppState.handle_primary_click click_allowed click_snapped_pos
  by_cases hin : (st.canvas.get_screen_rect canvas_rect).containsPt pos
  · simp only [hin, if_true, true_and]
  · simp [hin]

/-- Witness-style boundary check for C6 (spec example): with an 800×600
canvas at zoom 1 and a viewport whose screen rectangle is exactly
`[0,800]×[0,600]`, a click at `(800, 300)` is allowed (inclusive boundary)
and appends the marker, while a click resolving beyond the boundary at
`(850, 300)` is rejected and the state is unchanged. -/
def stClick : AppState :=
  { canvas := { width := 800, height := 600, offset := ⟨0, 0⟩, zoom := 1 }
    grid := { size := 20, visible := true, snapping := false }
    coordinate_system := { origin_top_left := true, canvas_height := 600 }
    markers := []
    marker_color := ⟨255, 0, 0, 255⟩
    recalculate_markers := false
    clipboard := none }

/-- The viewport rectangle used by the C6 examples. -/
def rectClick : Rect := ⟨⟨0, 0⟩, ⟨800, 600⟩⟩

set_option maxRecDepth 8000 in
example :
    click_allowed stClick rectClick ⟨800, 300⟩ ∧
    click_snapped_pos stClick rectClick ⟨800, 300⟩ = ⟨800, 300⟩ ∧
    (stClick.handle_primary_click rectClick ⟨800, 300⟩).markers.map Marker.position =
      [⟨800, 300⟩] := by
  refine ⟨?_, ?_, ?_⟩ <;> with_unfolding_all decide

set_option maxRecDepth 8000 in
example :
    ¬ click_allowed stClick rectClick ⟨850, 300⟩ ∧
    (stClick.handle_primary_click rectClick ⟨850, 300⟩).markers = [] := by
  refine ⟨?_, ?_⟩ <;> with_unfolding_all decide

/-! ## C7: marker removal by proximity -/

/-- Unfolding of `remove_nearby_marker` on a nonempty list. -/
theorem remove_nearby_marker_cons (a : Marker) (l : List Marker) (p : Point) :
    remove_nearby_marker (a :: l) p =
      if nearClick a p then l else a :: remove_nearby_marker l p := by
  unfold remove_nearby_marker
  rw [List.findIdx?_cons]
  by_cases h : nearClick a p
  · simp [h]
  · have hd : decide (nearClick a p) = false := decide_eq_false h
    simp only [hd, Bool.false_eq_true, if_false, List.findIdx?_succ]
    cases hfi : List.findIdx? (fun marker => decide (nearClick marker p)) l with
    | none => simp [if_neg h]
    | some i => simp [List.eraseIdx_cons_succ, if_neg h]

/-- C7: a right-click resolved to canvas position `p` removes exactly the
first marker (in insertion order) whose canvas position is within the
10-pixel Euclidean threshold of `p`, preserving the rest of the list and
its order; when no marker is within the threshold the list is unchanged. -/
theorem remove_nearby_marker_spec (p : Point) :
    (∀ ms : List Marker, (∀ m ∈ ms, ¬ nearClick m p) → remove_nearby_marker ms p = ms) ∧
    (∀ (pre : List Marker) (m : Marker) (post : List Marker), nearClick m p →
      (∀ m' ∈ pre, ¬ nearClick m' p) →
      remove_nearby_marker (pre ++ m :: post) p = pre ++ post) := by
  constructor
  · intro ms hms
    induction ms with
    | nil => rfl
    | cons a l ih =>
        rw [remove_nearby_marker_cons, if_neg (hms a (by simp)),
          ih fun m hm => hms m (by simp [hm])]
  · intro pre m post hm hpre
    induction pre with
    | nil => rw [List.nil_append, remove_nearby_marker_cons, if_pos hm]; rfl
    | cons a l ih =>
        rw [List.cons_append, remove_nearby_marker_cons,
          if_neg (hpre a (by simp)), ih fun m' hm' => hpre m' (by simp [hm'])]
        rfl

/-- A marker at canvas `(100, 100)` for the C7 witness. -/
def mNear : Marker := ⟨⟨100, 100⟩, ⟨100, 100⟩, ⟨255, 0, 0, 255⟩⟩

/-- Witness for C7 (spec examples): a right-click at `(105, 103)`
(distance ≈ 5.8) removes the marker at `(100, 100)`; a right-click at
`(120, 120)` (distance ≈ 28.3) leaves the list unchanged. -/
theorem remove_nearby_marker_spec_witness :
    nearClick mNear ⟨105, 103⟩ ∧
    remove_nearby_marker [mNear] ⟨105, 103⟩ = [] ∧
    ¬ nearClick mNear ⟨120, 120⟩ ∧
    remove_nearby_marker [mNear] ⟨120, 120⟩ = [mNear] :=
  ⟨by with_unfolding_all decide,
   (remove_nearby_marker_spec ⟨105, 103⟩).2 [] mNear []
     (by with_unfolding_all decide) (by simp),
   by with_unfolding_all decide,
   (remove_nearby_marker_spec ⟨120, 120⟩).1 [mNear]
     (by simp; with_unfolding_all decide)⟩

/-! ## C9: clipboard failure handling -/

/-- C9: `copy_to_clipboard` never changes the application state, returns
`false` whenever the clipboard capability is absent, and otherwise returns
exactly the host service's success boolean; no error is raised anywhere. -/
theorem copy_to_clipboard_spec (st : AppState) (text : String) :
    (st.copy_to_clipboard text).2 = st ∧
    (st.clipboard = none → (st.copy_to_clipboard text).1 = false) ∧
    (∀ f, st.clipboard = some f → (st.copy_to_clipboard text).1 = f text) := by
  unfold AppState.copy_to_clipboard
  rcases hcb : st.clipboard with _ | f <;> simp [hcb]

/-- Witness for C9 on a state with no clipboard capability. -/
theorem copy_to_clipboard_spec_witness :
    (stClick.copy_to_clipboard "1. (3, 0)").2 = stClick ∧
    stClick.clipboard = none ∧
    (stClick.copy_to_clipboard "1. (3, 0)").1 = false :=
  ⟨(copy_to_clipboard_spec stClick "1. (3, 0)").1, rfl,
   (copy_to_clipboard_spec stClick "1. (3, 0)").2.1 rfl⟩

/-! ## C10: guarded delete by index -/

/-- C10: deleting a marker by list index removes exactly the marker at
that index when the index is in range, and is a no-op (not a panic) when
the index is out of range. -/
theorem delete_marker_at_spec (markers : List Marker) (index : ℕ) :
    delete_marker_at markers index =
      if index < markers.length
      then markers.take index ++ markers.drop (index + 1)
      else markers := by
  unfold delete_marker_at
  split
  · exact List.eraseIdx_eq_take_drop_succ markers index
  · rfl

/-! ## C8: "Copy All Coordinates" formatting -/

/-- The string the claim says is built: same shape but with coordinates
rounded to the nearest integer (written from the claim's words, to be
compared with `copy_all_coords`). -/
def copy_all_coords_rounded (markers : List Marker) : String :=
  joinLines (markers.enum.map fun p =>
    s!"{p.1 + 1}. ({rustRound p.2.system_position.x}, {rustRound p.2.system_position.y})")

/-- The specification-side description of the copied text, as a direct
recursion carrying the 1-based line number: one line `"N. (x, y)"` per
marker with truncated-toward-zero coordinates, lines separated by
newlines. -/
def copy_all_fmt (n : ℕ) : List Marker → String
  | [] => ""
  | [m] => s!"{n}. ({truncToInt m.system_position.x}, {truncToInt m.system_position.y})"
  | m :: rest =>
      s!"{n}. ({truncToInt m.system_position.x}, {truncToInt m.system_position.y})" ++
        "\n" ++ copy_all_fmt (n + 1) rest

/-- A marker whose display position has fractional coordinates. -/
def mTrunc : Marker := ⟨⟨0, 0⟩, ⟨37/10, 1/2⟩, ⟨255, 0, 0, 255⟩⟩

/-- Counterexample to C8: the code converts coordinates with `as i32`,
which truncates toward zero, not to the nearest integer: a marker with
display position `(3.7, 0.5)` is copied as `"1. (3, 0)"`, while rounding
to nearest would give `"1. (4, 1)"`. -/
theorem copy_all_coords_not_rounded :
    copy_all_coords [mTrunc] ≠ copy_all_coords_rounded [mTrunc] ∧
    copy_all_coords [mTrunc] = "1. (3, 0)" ∧
    copy_all_coords_rounded [mTrunc] = "1. (4, 1)" := by
  refine ⟨?_, ?_, ?_⟩ <;> with_unfolding_all decide

theorem copy_all_coords_enumFrom (k : ℕ) (ms : List Marker) :
    joinLines ((List.enumFrom k ms).map fun p =>
      s!"{p.1 + 1}. ({truncToInt p.2.system_position.x}, {truncToInt p.2.system_position.y})") =
    copy_all_fmt (k + 1) ms := by
  induction ms generalizing k with
  | nil => rfl
  | cons m rest ih =>
      cases rest with
      | nil => rfl
      | cons m2 rest2 =>
          exact congrArg
            (fun s => s!"{k + 1}. ({truncToInt m.system_position.x}, {truncToInt m.system_position.y})" ++ "\n" ++ s)
            (ih (k + 1))

/-- C8 (amended): "Copy All Coordinates" builds, for the markers in
insertion order, one line `"N. (x, y)"` per marker, where `N` is the
1-based index and `x`, `y` are the display coordinates converted to
integers by truncation toward zero (Rust `as i32`), joins the lines with
newlines, and passes exactly that string to the clipboard service. -/
theorem copy_all_coords_spec :
    (∀ markers : List Marker, copy_all_coords markers = copy_all_fmt 1 markers) ∧
    (∀ st : AppState, copy_all_action st = st.copy_to_clipboard (copy_all_fmt 1 st.markers)) := by
  have h : ∀ ms : List Marker, copy_all_coords ms = copy_all_fmt 1 ms :=
    fun ms => copy_all_coords_enumFrom 0 ms
  exact ⟨h, fun st => by rw [copy_all_action, h]⟩

end CoordinatePicker
